import Mathlib

/-!
Verification of the solar-system renderer (`src/main.js`) against its
natural-language specification.

The development shallowly embeds the program's orbital kinematics
(`makePlanet`, the per-frame update in `animate`), the selective-bloom
material swap (`darkenNonBloom` / `restoreMaterials` and the frame
sequence in `animate`), and the GLSL noise pipeline of the Sun shader
(`hash`, `noise`, `fbm`, `smoothstep`).  Machine floats are modelled by
real numbers; the DOM, WebGL and three.js rendering calls are external
collaborators and are not modelled beyond the documented semantics the
code relies on (`Object3D.rotation.y`, material assignment, `Map`).
-/

namespace Solar

/-- A 3-component vector, standing for both `THREE.Vector3` and GLSL `vec3`. -/
structure Vec3 where
  x : ℝ
  y : ℝ
  z : ℝ

/-- Componentwise scalar multiplication, GLSL `p * c`. -/
def vmul (c : ℝ) (v : Vec3) : Vec3 := ⟨c * v.x, c * v.y, c * v.z⟩

/-- GLSL scalar-to-vector addition, `p + c`. -/
def vaddc (v : Vec3) (c : ℝ) : Vec3 := ⟨v.x + c, v.y + c, v.z + c⟩

/-- Componentwise vector addition. -/
def vaddv (v w : Vec3) : Vec3 := ⟨v.x + w.x, v.y + w.y, v.z + w.z⟩

/- ------------------ Config (src/main.js CONFIG) ------------------ -/

/-- Constant `CONFIG.AU`: 1 AU in scene units. -/
def AU : ℝ := 60

/-- Constant `CONFIG.radiusScale`: visual scale for planet sizes. -/
def radiusScale : ℝ := 2.0

/-- Constant `daySec = 86400`. -/
def daySec : ℝ := 86400

/- ------------------ Planet catalog (src/main.js PLANETS) ------------------ -/

/-- One entry of the `PLANETS` catalog (name, visual radius, semi-major
axis in AU, sidereal period in days; the color is render-only data and
is carried as the raw hex number). -/
structure Entry where
  name : String
  radius : ℝ
  a_AU : ℝ
  period_days : ℝ
  color : ℕ

def mercuryE : Entry := ⟨"Mercury", 1.3 * radiusScale, 0.387, 87.969, 0xaaaaaa⟩
def venusE : Entry := ⟨"Venus", 2.1 * radiusScale, 0.723, 224.701, 0xffd27f⟩
def earthE : Entry := ⟨"Earth", 2.2 * radiusScale, 1.000, 365.256, 0x3ba3ff⟩
def marsE : Entry := ⟨"Mars", 1.8 * radiusScale, 1.524, 686.980, 0xff6a4b⟩
def jupiterE : Entry := ⟨"Jupiter", 8.5 * radiusScale, 5.203, 4332.59, 0xffaa00⟩
def saturnE : Entry := ⟨"Saturn", 7.3 * radiusScale, 9.537, 10759.2, 0xffe680⟩
def uranusE : Entry := ⟨"Uranus", 3.7 * radiusScale, 19.191, 30685.4, 0x80ffff⟩
def neptuneE : Entry := ⟨"Neptune", 3.5 * radiusScale, 30.07, 60190, 0x5f7dff⟩

/-- The `PLANETS` catalog. -/
def PLANETS : List Entry :=
  [mercuryE, venusE, earthE, marsE, jupiterE, saturnE, uranusE, neptuneE]

/-- Lookup `phaseOffsets[name] || 0` (src/main.js line 200). -/
def phaseOffsets (name : String) : ℝ :=
  if name = "Mercury" then 0.1
  else if name = "Venus" then 1.2
  else if name = "Earth" then 2.1
  else if name = "Mars" then 3.0
  else if name = "Jupiter" then 0.5
  else if name = "Saturn" then 1.6
  else if name = "Uranus" then 2.7
  else if name = "Neptune" then 3.8
  else 0

/- ------------------ JS arithmetic helpers ------------------ -/

/-- JavaScript truncation toward zero (used by the `%` operator). -/
noncomputable def jsTrunc (q : ℝ) : ℤ := if 0 ≤ q then ⌊q⌋ else ⌈q⌉

/-- The JavaScript remainder operator `a % b` on (finite, nonzero-divisor)
numbers: `a - b * trunc(a / b)`.  For `a ≥ 0, b > 0` this agrees with the
mathematical `a mod b`. -/
noncomputable def jsRem (a b : ℝ) : ℝ := a - b * jsTrunc (a / b)

/- ------------------ makePlanet (src/main.js 225-273) ------------------ -/

/-- The per-planet simulation record returned by `makePlanet` (the fields
of the returned object that carry simulation state; `group`/`mesh` are
scene-graph handles and `pos` is `mesh.position`). -/
structure Planet where
  name : String
  radius : ℝ
  distance : ℝ
  meanMotionSec : ℝ
  theta : ℝ
  pos : Vec3
  spin : ℝ

/-- Function `makePlanet(p)` from src/main.js, with the ambient `now = Date.now()`
(milliseconds) and the `Math.random()` draw for the spin rate made
explicit parameters.  The mesh's axial-tilt rotation (`mesh.rotation.z`)
and its label sprite are render-only and carried by no claim, so they
are not part of the record. -/
noncomputable def makePlanet (p : Entry) (nowMs rand : ℝ) : Planet :=
  let distance := p.a_AU * AU
  let periodSec := p.period_days * daySec
  let meanMotionSec := 2 * Real.pi / periodSec
  let nowSec := jsRem (nowMs / 1000) periodSec
  let theta0 := meanMotionSec * nowSec + phaseOffsets p.name
  { name := p.name
    radius := p.radius
    distance := distance
    meanMotionSec := meanMotionSec
    theta := theta0
    pos := ⟨Real.cos theta0 * distance, 0, Real.sin theta0 * distance⟩
    spin := 0.01 + rand * 0.02 }

/- ------------------ animate: orbital advance (src/main.js 360-373) ------------- -/

/-- One planet's update inside `animate`'s `forEach` (src/main.js 361-367):
`theta += meanMotionSec * dt * warp` with `warp = timeScale * speedBoost`,
then `mesh.position.set(cos(theta)*distance, 0, sin(theta)*distance)`. -/
noncomputable def advancePlanet (dt timeScale speedBoost : ℝ) (p : Planet) : Planet :=
  let warp := timeScale * speedBoost
  let theta := p.theta + p.meanMotionSec * dt * warp
  { p with
    theta := theta
    pos := ⟨Real.cos theta * p.distance, 0, Real.sin theta * p.distance⟩ }

/-- Constants `moonPeriodSec = 27.3 * daySec` and `moonMeanMotionSec = 2π / moonPeriodSec`. -/
noncomputable def moonMeanMotionSec : ℝ := 2 * Real.pi / (27.3 * daySec)

/-- The moon's update inside `animate` (src/main.js 372):
`moonAngle += moonMeanMotionSec * dt * warp`. -/
noncomputable def advanceMoon (dt timeScale speedBoost angle : ℝ) : ℝ :=
  angle + moonMeanMotionSec * dt * (timeScale * speedBoost)

/- --------------- Selective bloom (src/main.js 153-171, 378-380) --------------- -/

/-- A scene-graph node as seen by the bloom traversals: whether it is a
mesh (`obj.isMesh`), whether `addToBloom` enabled the `BLOOM_LAYER` bit
on its layer mask (`mesh.layers.enable(BLOOM_LAYER)`), and its current
material, abstracted to a numeric id.  The bloom bit is carried because
`addToBloom` really does set it on the sun, planets, moon and ring —
but the darken guard never observes it: see `layersTestInt`.  Node
identity (the `Map` key in the JS code is the object itself) is
represented by the node's index in the scene's traversal order. -/
structure Node where
  isMesh : Bool
  bloom : Bool
  material : ℕ
  deriving DecidableEq

/-- Constant `darkMaterial`, a black `MeshBasicMaterial`:
the distinguished fully unlit black material. -/
def darkMaterial : ℕ := 0

/-- The call `obj.layers.test(BLOOM_LAYER)` as src/main.js 161 actually
executes it.  three.js `Layers.test(layers)` returns
`(this.mask & layers.mask) !== 0`, but the code passes the raw integer
`BLOOM_LAYER = 1` instead of a `Layers` object; `(1).mask` is
`undefined`, `mask & undefined` coerces to 0, and `0 !== 0` is false —
so the call returns `false` for every node, and the bloom bit set by
`addToBloom` is never observed by the guard. -/
def layersTestInt (_ : Node) : Bool := false

/-- The guard of `darkenNonBloom` (src/main.js 161):
`obj.isMesh && !obj.layers.test(BLOOM_LAYER)`, which — the `test` call
being constant-false — reduces to `obj.isMesh` alone: every mesh is
darkened, bloom-tagged or not. -/
def needsDarken (n : Node) : Bool := n.isMesh && !layersTestInt n

/-- The side table `materials : Map`, keyed by node identity (traversal index). -/
def SideTable := List (ℕ × ℕ)

/-- Association lookup in the side table, as `Map.get`. -/
def lookupTable : List (ℕ × ℕ) → ℕ → Option ℕ
  | [], _ => none
  | (k, v) :: rest, i => if k = i then some v else lookupTable rest i

/-- Removal of the entry for a key, as `Map.delete`. -/
def eraseKey : List (ℕ × ℕ) → ℕ → List (ℕ × ℕ)
  | [], _ => []
  | (k, v) :: rest, i => if k = i then rest else (k, v) :: eraseKey rest i

/-- Traversal `scene.traverse(darkenNonBloom)` (src/main.js 160-165, 378): nodes are
visited in traversal order starting at index `i`; every node passing the
`needsDarken` guard has its material saved into the side table and
replaced by `darkMaterial`.  Returns the mutated scene and the entries
this traversal added (in front of the incoming table `st0`). -/
def darkenPass : ℕ → List Node → List (ℕ × ℕ) → List Node × List (ℕ × ℕ)
  | _, [], st0 => ([], st0)
  | i, n :: rest, st0 =>
    let out := darkenPass (i + 1) rest st0
    if needsDarken n then
      ({ n with material := darkMaterial } :: out.1, (i, n.material) :: out.2)
    else
      (n :: out.1, out.2)

/-- Function `restoreMaterials` applied to one node (src/main.js 166-171): if the
side table has an entry for this node, put the saved material back and
delete the entry. -/
def restoreNode (st : List (ℕ × ℕ)) (i : ℕ) (n : Node) : List (ℕ × ℕ) × Node :=
  match lookupTable st i with
  | some m => (eraseKey st i, { n with material := m })
  | none => (st, n)

/-- Traversal `scene.traverse(restoreMaterials)` (src/main.js 380). -/
def restorePass : ℕ → List (ℕ × ℕ) → List Node → List Node × List (ℕ × ℕ)
  | _, st, [] => ([], st)
  | i, st, n :: rest =>
    let p := restoreNode st i n
    let out := restorePass (i + 1) p.1 rest
    (p.2 :: out.1, out.2)

/-- The bloom portion of one `animate` frame (src/main.js 378-380):
darken traversal, then `composer.render()`, then restore traversal.
`renderOk` records whether `composer.render()` returned normally; when
it throws, `animate` aborts and the restore traversal never runs — the
source has no `try`/`finally` around the render call. -/
def frame (renderOk : Bool) (s : List Node) (st0 : List (ℕ × ℕ)) :
    List Node × List (ℕ × ℕ) :=
  let d := darkenPass 0 s st0
  if renderOk then restorePass 0 d.2 d.1 else d

/- --------------- Sun shader noise pipeline (src/main.js 80-127) --------------- -/

/-- GLSL `fract(x) = x - floor(x)`. -/
noncomputable def fract (x : ℝ) : ℝ := Int.fract x

/-- Componentwise `fract` on a `vec3`. -/
noncomputable def vfract (v : Vec3) : Vec3 := ⟨fract v.x, fract v.y, fract v.z⟩

/-- Componentwise `floor` on a `vec3` (real-valued, as in GLSL). -/
noncomputable def vfloor (v : Vec3) : Vec3 := ⟨⌊v.x⌋, ⌊v.y⌋, ⌊v.z⌋⟩

/-- GLSL `mix(x, y, a) = x*(1-a) + y*a`. -/
def mix (x y a : ℝ) : ℝ := x * (1 - a) + y * a

/-- The shader's `hash` (src/main.js 87):
`p = fract(p*0.3183099 + vec3(0.1,0.2,0.3)); p *= 17.0;
return fract(p.x*p.y*p.z*(p.x+p.y+p.z))`. -/
noncomputable def hash (p : Vec3) : ℝ :=
  let q := vfract (vaddv (vmul 0.3183099 p) ⟨0.1, 0.2, 0.3⟩)
  let q := vmul 17.0 q
  fract (q.x * q.y * q.z * (q.x + q.y + q.z))

/-- The cubic fade `f*f*(3-2*f)` applied to the fractional coordinates
inside `noise`. -/
def fade (f : ℝ) : ℝ := f * f * (3 - 2 * f)

/-- The shader's value `noise` (src/main.js 88-97): hash the 8 lattice
corners around `p` and interpolate trilinearly with the faded
fractional coordinates. -/
noncomputable def noise (p : Vec3) : ℝ :=
  let i := vfloor p
  let f0 := vfract p
  let f : Vec3 := ⟨fade f0.x, fade f0.y, fade f0.z⟩
  mix
    (mix (mix (hash (vaddv i ⟨0, 0, 0⟩)) (hash (vaddv i ⟨1, 0, 0⟩)) f.x)
         (mix (hash (vaddv i ⟨0, 1, 0⟩)) (hash (vaddv i ⟨1, 1, 0⟩)) f.x) f.y)
    (mix (mix (hash (vaddv i ⟨0, 0, 1⟩)) (hash (vaddv i ⟨1, 0, 1⟩)) f.x)
         (mix (hash (vaddv i ⟨0, 1, 1⟩)) (hash (vaddv i ⟨1, 1, 1⟩)) f.x) f.y)
    f.z

/-- The per-octave domain update of `fbm` (src/main.js 102):
`p = p*2.02 + 11.5`. -/
noncomputable def fbmStep (p : Vec3) : Vec3 := vaddc (vmul 2.02 p) 11.5

/-- The loop of `fbm` (src/main.js 99-104), recursing on the remaining
octave count with the running amplitude `a`, sample point `p` and
accumulator `s`: each iteration performs `s += a*noise(p); p = p*2.02 +
11.5; a *= 0.5`. -/
noncomputable def fbmAux : ℕ → ℝ → Vec3 → ℝ → ℝ
  | 0, _, _, s => s
  | k + 1, a, p, s => fbmAux k (a * 0.5) (fbmStep p) (s + a * noise p)

/-- Function `fbm` (src/main.js 98-106): 5 octaves, starting amplitude `0.5`,
accumulator starting at `0.0`. -/
noncomputable def fbm (p : Vec3) : ℝ := fbmAux 5 0.5 p 0

/-- The point at which `fbm p` samples `noise` in octave `k`
(the value of the loop variable `p` at the start of iteration `k`). -/
noncomputable def fbmArg (p : Vec3) : ℕ → Vec3
  | 0 => p
  | k + 1 => fbmStep (fbmArg p k)

/-- GLSL `clamp(x, 0.0, 1.0)`. -/
noncomputable def clamp01 (x : ℝ) : ℝ := max 0 (min x 1)

/-- GLSL `smoothstep(e0, e1, x)`. -/
noncomputable def smoothstep (e0 e1 x : ℝ) : ℝ :=
  let t := clamp01 ((x - e0) / (e1 - e0))
  t * t * (3 - 2 * t)

/-- Uniform `sunUniforms.uCrack.value` (src/main.js 64). -/
def uCrack : ℝ := 0.55

/- --------------- Earlier revision's orbit placement (src/unnamed/part_000) ----- -/

/-- Rotation of a vector about the y-axis by angle `θ`, as three.js
applies an `Object3D.rotation.y` to a child's local position
(right-handed, `Matrix4.makeRotationY`: `x' = cosθ·x + sinθ·z`,
`z' = -sinθ·x + cosθ·z`). -/
noncomputable def rotY (θ : ℝ) (v : Vec3) : Vec3 :=
  ⟨Real.cos θ * v.x + Real.sin θ * v.z, v.y,
   -(Real.sin θ) * v.x + Real.cos θ * v.z⟩

/-- World position of a body in the earlier revision
(src/unnamed/part_000, `makePlanet`/`animate`): the mesh sits at local
position `(d, 0, 0)` inside a group whose `rotation.y` is the orbital
angle `θ`. -/
noncomputable def oldWorldPos (θ d : ℝ) : Vec3 := rotY θ ⟨d, 0, 0⟩

/-- World position of a body in the current revision (src/main.js 362-367):
`mesh.position.set(cos(θ)*d, 0, sin(θ)*d)`. -/
noncomputable def newWorldPos (θ d : ℝ) : Vec3 :=
  ⟨Real.cos θ * d, 0, Real.sin θ * d⟩

/- ======================== Helper lemmas ======================== -/

/-- Every literal `PLANETS` entry has a positive period and a positive
semi-major axis. -/
theorem catalog_pos : ∀ e ∈ PLANETS, 0 < e.period_days ∧ 0 < e.a_AU := by
  intro e he
  simp only [PLANETS, List.mem_cons, List.not_mem_nil, or_false] at he
  rcases he with h | h | h | h | h | h | h | h <;> subst h <;>
    constructor <;>
    norm_num [mercuryE, venusE, earthE, marsE, jupiterE, saturnE, uranusE, neptuneE]

/-- The mean motion of every catalog body is strictly positive. -/
theorem meanMotion_pos_of_mem (e : Entry) (he : e ∈ PLANETS) (nowMs rand : ℝ) :
    0 < (makePlanet e nowMs rand).meanMotionSec := by
  have hp := (catalog_pos e he).1
  simp only [makePlanet]
  have hd : 0 < e.period_days * daySec := by
    have : (0 : ℝ) < daySec := by norm_num [daySec]
    positivity
  positivity

/- ======================== Claims ======================== -/

/-- C1: for every catalog body and every `dt ≥ 0`, one `animate` step
updates the body's angle to `angle + meanMotion·dt·timeScale·speedBoost`,
updates the moon's angle analogously with its own mean motion, and sets
the body's position to `(cos(angle)·distance, 0, sin(angle)·distance)`;
in particular the y-coordinate of the body's position is 0 both at
creation and after every step. -/
theorem advance_step_spec (e : Entry) (he : e ∈ PLANETS)
    (nowMs rand dt ts sb : ℝ) (hdt : 0 ≤ dt) :
    ((advancePlanet dt ts sb (makePlanet e nowMs rand)).theta
        = (makePlanet e nowMs rand).theta
          + (makePlanet e nowMs rand).meanMotionSec * dt * ts * sb)
    ∧ ((advancePlanet dt ts sb (makePlanet e nowMs rand)).pos
        = ⟨Real.cos ((advancePlanet dt ts sb (makePlanet e nowMs rand)).theta)
             * (makePlanet e nowMs rand).distance, 0,
           Real.sin ((advancePlanet dt ts sb (makePlanet e nowMs rand)).theta)
             * (makePlanet e nowMs rand).distance⟩)
    ∧ (advancePlanet dt ts sb (makePlanet e nowMs rand)).pos.y = 0
    ∧ (makePlanet e nowMs rand).pos.y = 0
    ∧ (∀ a : ℝ, advanceMoon dt ts sb a = a + moonMeanMotionSec * dt * ts * sb) := by
  refine ⟨?_, ?_, ?_, ?_, ?_⟩
  · simp only [advancePlanet]; ring
  · simp only [advancePlanet]
  · simp only [advancePlanet]
  · simp only [makePlanet]
  · intro a; simp only [advanceMoon]; ring

/-- Witness for C1 at the Earth entry with `dt = 1`, `ts = 1`, `sb = 1`. -/
theorem advance_step_spec_witness :
    ((advancePlanet 1 1 1 (makePlanet earthE 0 0)).theta
        = (makePlanet earthE 0 0).theta
          + (makePlanet earthE 0 0).meanMotionSec * 1 * 1 * 1)
    ∧ ((advancePlanet 1 1 1 (makePlanet earthE 0 0)).pos
        = ⟨Real.cos ((advancePlanet 1 1 1 (makePlanet earthE 0 0)).theta)
             * (makePlanet earthE 0 0).distance, 0,
           Real.sin ((advancePlanet 1 1 1 (makePlanet earthE 0 0)).theta)
             * (makePlanet earthE 0 0).distance⟩)
    ∧ (advancePlanet 1 1 1 (makePlanet earthE 0 0)).pos.y = 0
    ∧ (makePlanet earthE 0 0).pos.y = 0
    ∧ (∀ a : ℝ, advanceMoon 1 1 1 a = a + moonMeanMotionSec * 1 * 1 * 1) :=
  advance_step_spec earthE (by simp [PLANETS]) 0 0 1 1 1 (by norm_num)

/-- C6: every body's initial angle is
`meanMotion · ((epoch in seconds) mod periodSeconds) + phaseOffset` with
`periodSeconds = period_days · 86400`, and its initial position is
`(cos(angle0)·distance, 0, sin(angle0)·distance)`.  `nowMs` is the
`Date.now()` epoch in milliseconds, so `nowMs / 1000` is the epoch in
seconds. -/
theorem initial_angle_spec (e : Entry) (nowMs rand : ℝ) :
    (makePlanet e nowMs rand).theta
      = 2 * Real.pi / (e.period_days * 86400)
        * jsRem (nowMs / 1000) (e.period_days * 86400)
        + phaseOffsets e.name
    ∧ (makePlanet e nowMs rand).pos
      = ⟨Real.cos ((makePlanet e nowMs rand).theta) * (e.a_AU * AU), 0,
         Real.sin ((makePlanet e nowMs rand).theta) * (e.a_AU * AU)⟩ := by
  constructor <;> simp only [makePlanet, daySec]

/-- C7: for every catalog body and strictly positive `dt`, `timeScale`
and `speedBoost`, the angle strictly increases across one advance step. -/
theorem advance_strict_mono (e : Entry) (he : e ∈ PLANETS)
    (nowMs rand dt ts sb : ℝ) (hdt : 0 < dt) (hts : 0 < ts) (hsb : 0 < sb) :
    (makePlanet e nowMs rand).theta
      < (advancePlanet dt ts sb (makePlanet e nowMs rand)).theta := by
  have hm := meanMotion_pos_of_mem e he nowMs rand
  simp only [advancePlanet]
  have : 0 < (makePlanet e nowMs rand).meanMotionSec * dt * (ts * sb) := by positivity
  linarith

/-- Witness for C7 at the Earth entry with `dt = ts = sb = 1`. -/
theorem advance_strict_mono_witness :
    (makePlanet earthE 0 0).theta < (advancePlanet 1 1 1 (makePlanet earthE 0 0)).theta :=
  advance_strict_mono earthE (by simp [PLANETS]) 0 0 1 1 1
    (by norm_num) (by norm_num) (by norm_num)

/-- C5 counterexample: `makePlanet` performs no validation at all.  On an
entry with negative period and negative semi-major axis it does not fail:
it constructs a planet record (with a negative mean motion) and the
simulation starts with it.  No `ConfigurationError` exists anywhere in
the source. -/
theorem makePlanet_accepts_invalid_entry :
    (makePlanet ⟨"Bad", 1, -1, -1, 0⟩ 0 0).meanMotionSec < 0
    ∧ (makePlanet ⟨"Bad", 1, -1, -1, 0⟩ 0 0).distance < 0 := by
  constructor
  · simp only [makePlanet]
    apply div_neg_of_pos_of_neg
    · have := Real.pi_pos; linarith
    · norm_num [daySec]
  · simp only [makePlanet]
    norm_num [AU]

/-- C5 amended: the shipped catalog contains no entry with non-positive
period or semi-major axis, so the configuration-error condition never
arises on the data the program actually starts with; the code itself
performs no validation and has no failure path. -/
theorem catalog_has_no_invalid_entry :
    ∀ e ∈ PLANETS, 0 < e.period_days ∧ 0 < e.a_AU :=
  catalog_pos

/-- Witness for C5 (amended) at the Earth entry. -/
theorem catalog_has_no_invalid_entry_witness :
    0 < earthE.period_days ∧ 0 < earthE.a_AU :=
  catalog_has_no_invalid_entry earthE (by simp [PLANETS])

/-- The Earth entry's mean motion, written out: `2π / 31558118.4`. -/
theorem earth_meanMotion_closed (nowMs rand : ℝ) :
    (makePlanet earthE nowMs rand).meanMotionSec = 2 * Real.pi / 31558118.4 := by
  simp only [makePlanet, earthE, daySec]
  norm_num

/-- C2 counterexample: for the entry with `period_days = 365.256` the
derived mean motion is *not* approximately `1.99238e-7` rad/s: it
differs from that value by more than `1e-10`, i.e. in the fourth
significant digit (the spec's figure corresponds to a period of exactly
365.0 days). -/
theorem earth_meanMotion_differs_from_spec_value :
    1e-10 < |(makePlanet earthE 0 0).meanMotionSec - 1.99238e-7| := by
  rw [earth_meanMotion_closed]
  have hπ := Real.pi_lt_d6
  have hub : 2 * Real.pi / 31558118.4 < 1.990998e-7 := by
    rw [div_lt_iff₀ (by norm_num : (0:ℝ) < 31558118.4)]
    nlinarith
  rw [abs_of_neg (by nlinarith)]
  nlinarith

/-- C2 amended: for every catalog body, `meanMotion = 2π /
(period_days · 86400)` and it is strictly positive; for the entry with
`period_days = 365.256` its value is `1.990988e-7` rad/s to within
`1e-11` (not the spec's `1.99238e-7`, which is the mean motion of a
365.0-day period). -/
theorem meanMotion_formula (e : Entry) (he : e ∈ PLANETS) (nowMs rand : ℝ) :
    (makePlanet e nowMs rand).meanMotionSec = 2 * Real.pi / (e.period_days * 86400)
    ∧ 0 < (makePlanet e nowMs rand).meanMotionSec
    ∧ |(makePlanet earthE nowMs rand).meanMotionSec - 1.990988e-7| < 1e-11 := by
  refine ⟨by simp only [makePlanet, daySec], meanMotion_pos_of_mem e he nowMs rand, ?_⟩
  rw [earth_meanMotion_closed]
  have hπ₁ := Real.pi_gt_d6
  have hπ₂ := Real.pi_lt_d6
  have hlb : (1.990978e-7 : ℝ) < 2 * Real.pi / 31558118.4 := by
    rw [lt_div_iff₀ (by norm_num : (0:ℝ) < 31558118.4)]
    nlinarith
  have hub : 2 * Real.pi / 31558118.4 < 1.990998e-7 := by
    rw [div_lt_iff₀ (by norm_num : (0:ℝ) < 31558118.4)]
    nlinarith
  rw [abs_lt]
  constructor <;> nlinarith

/-- Witness for C2 (amended) at the Earth entry. -/
theorem meanMotion_formula_witness :
    (makePlanet earthE 0 0).meanMotionSec = 2 * Real.pi / (earthE.period_days * 86400)
    ∧ 0 < (makePlanet earthE 0 0).meanMotionSec
    ∧ |(makePlanet earthE 0 0).meanMotionSec - 1.990988e-7| < 1e-11 :=
  meanMotion_formula earthE (by simp [PLANETS]) 0 0

/-- Every entry the darken traversal adds when started from an empty
table carries a key at least the starting index. -/
theorem darken_keys_ge (s : List Node) :
    ∀ (i : ℕ), ∀ p ∈ (darkenPass i s []).2, i ≤ p.1 := by
  induction s with
  | nil =>
    intro i p hp
    simp [darkenPass] at hp
  | cons n rest ih =>
    intro i p hp
    simp only [darkenPass] at hp
    by_cases h : needsDarken n
    · simp only [h, if_true, List.mem_cons] at hp
      rcases hp with h1 | h1
      · subst h1; exact le_refl i
      · exact Nat.le_of_succ_le (ih (i + 1) p h1)
    · simp only [h, if_false] at hp
      exact Nat.le_of_succ_le (ih (i + 1) p hp)

/-- A key strictly below every key in the table is absent from it. -/
theorem lookupTable_none {st : List (ℕ × ℕ)} {i : ℕ}
    (h : ∀ p ∈ st, i < p.1) : lookupTable st i = none := by
  induction st with
  | nil => rfl
  | cons kv rest ih =>
    obtain ⟨k, v⟩ := kv
    have hk := h (k, v) (by simp)
    simp only [lookupTable]
    rw [if_neg (by omega)]
    exact ih fun p hp => h p (List.mem_cons_of_mem _ hp)

/-- The restore traversal exactly undoes the darken traversal when the
table starts empty: the scene returns to its pre-frame state and the
table is empty again. -/
theorem restore_undoes_darken (s : List Node) :
    ∀ (i : ℕ), restorePass i (darkenPass i s []).2 (darkenPass i s []).1 = (s, []) := by
  induction s with
  | nil => intro i; rfl
  | cons n rest ih =>
    intro i
    by_cases h : needsDarken n
    · simp [darkenPass, h, restorePass, restoreNode, lookupTable, eraseKey, ih (i + 1)]
    · have hnone : lookupTable (darkenPass (i + 1) rest []).2 i = none :=
        lookupTable_none fun p hp =>
          Nat.lt_of_succ_le (darken_keys_ge rest (i + 1) p hp)
      simp [darkenPass, h, restorePass, restoreNode, hnone, ih (i + 1)]

/-- C3 counterexample: the restore step does *not* run on every exit
path.  `animate` calls `scene.traverse(darkenNonBloom)`,
`composer.render()` and `scene.traverse(restoreMaterials)` in sequence
with no `try`/`finally`; if the render step throws, the restore
traversal is skipped, leaving the side table non-empty and a non-bloom
mesh stuck with the black override.  Concretely, on a scene holding one
untagged mesh with material 5, a failed render leaves the node darkened
and the table holding the saved entry. -/
theorem frame_render_failure_leaks :
    frame false [⟨true, false, 5⟩] [] = ([⟨true, false, darkMaterial⟩], [(0, 5)])
    ∧ ([⟨true, false, darkMaterial⟩] : List Node) ≠ [⟨true, false, 5⟩]
    ∧ ([((0 : ℕ), (5 : ℕ))] : List (ℕ × ℕ)) ≠ [] :=
  ⟨rfl, by decide, by decide⟩

/-- C3 amended: on the frame's normal path (render returns), a frame
that starts with an empty side table restores every node's material to
its pre-frame value and ends with the table empty again — so across
normally-completing frames the table is empty at every frame boundary.
The unconditional-restore part of the claim does not hold: there is no
exception protection around the render step. -/
theorem frame_success_restores (s : List Node) : frame true s [] = (s, []) := by
  simpa only [frame, if_true] using restore_undoes_darken s 0

/-- The scene after the darken traversal: exactly the meshes lacking the
bloom tag are switched to `darkMaterial`; every other node is untouched. -/
theorem darkenPass_scene (s : List Node) :
    ∀ (i : ℕ) (st0 : List (ℕ × ℕ)),
      (darkenPass i s st0).1
        = s.map fun n => if needsDarken n then { n with material := darkMaterial } else n := by
  induction s with
  | nil => intro i st0; rfl
  | cons n rest ih =>
    intro i st0
    by_cases h : needsDarken n <;>
      simp [darkenPass, h, ih (i + 1) st0]

/-- Every mesh lacking the bloom tag has its pre-frame material saved in
the side table under its traversal index. -/
theorem darkenPass_saves (s : List Node) :
    ∀ (i : ℕ) (st0 : List (ℕ × ℕ)) (j : ℕ) (h : j < s.length),
      needsDarken (s.get ⟨j, h⟩) →
        (i + j, (s.get ⟨j, h⟩).material) ∈ (darkenPass i s st0).2 := by
  induction s with
  | nil => intro i st0 j h; exact absurd h (by simp)
  | cons n rest ih =>
    intro i st0 j h hd
    match j with
    | 0 =>
      simp only [List.get] at hd ⊢
      simp only [darkenPass, hd, if_true, Nat.add_zero]
      exact List.mem_cons_self _ _
    | j' + 1 =>
      have h' : j' < rest.length := by simpa using h
      have hd' : needsDarken (rest.get ⟨j', h'⟩) := by simpa using hd
      have hmem := ih (i + 1) st0 j' h' hd'
      have harith : i + (j' + 1) = (i + 1) + j' := by omega
      simp only [List.get, harith]
      by_cases hn : needsDarken n <;>
        simp only [darkenPass, hn, if_true, if_false, List.mem_cons] <;>
        [exact Or.inr hmem; exact hmem]

/-- C4 counterexample: the extract pass selects the wrong nodes on both
sides of the claim.  (a) A non-mesh node lacking the bloom tag — e.g. a
label `Sprite` or an orbit-ring `LineLoop` — is neither saved nor
darkened, so it stays visible with its true appearance in the offscreen
bloom render.  (b) A bloom-tagged *mesh* — the sun, any planet, the moon
or the ring, all of which `addToBloom` tagged — is darkened and saved
anyway, because the guard's `Layers.test(BLOOM_LAYER)` call passes an
integer where a `Layers` object is expected and is therefore
constant-false.  Both refute the claim that exactly the untagged nodes
are blacked out and the tagged ones keep their true appearance. -/
theorem darken_selects_wrong_nodes :
    (darkenPass 0 [⟨false, false, 7⟩] [] = ([⟨false, false, 7⟩], [])
      ∧ (7 : ℕ) ≠ darkMaterial)
    ∧ (darkenPass 0 [⟨true, true, 9⟩] []
        = ([⟨true, true, darkMaterial⟩], [(0, 9)])
      ∧ (9 : ℕ) ≠ darkMaterial) :=
  ⟨⟨rfl, by decide⟩, ⟨rfl, by decide⟩⟩

/-- C4 amended: during the extract pass, every *mesh* node — whether or
not it carries the bloom bit, since the guard's `Layers.test(integer)`
call is constant-false — has its material saved in the side table keyed
by node identity and replaced by the unlit black `darkMaterial`;
non-mesh nodes are neither saved nor darkened and keep their materials.
Consequently the offscreen bloom render shows every mesh blacked out
(including the bloom-tagged ones) and only non-mesh nodes with their
true appearance. -/
theorem darken_pass_spec (s : List Node) (st0 : List (ℕ × ℕ)) :
    ((darkenPass 0 s st0).1
        = s.map fun n => if n.isMesh then { n with material := darkMaterial } else n)
    ∧ ∀ (j : ℕ) (h : j < s.length),
        (s.get ⟨j, h⟩).isMesh →
          (j, (s.get ⟨j, h⟩).material) ∈ (darkenPass 0 s st0).2 := by
  have hnd : ∀ n : Node, needsDarken n = n.isMesh := by
    intro n; simp [needsDarken, layersTestInt]
  constructor
  · rw [darkenPass_scene s 0 st0]
    simp only [hnd]
  · intro j h hm
    simpa using darkenPass_saves s 0 st0 j h (by rw [hnd]; exact hm)

/-- Witness for C4 (amended) on a one-node scene holding a bloom-tagged
mesh (which is darkened and saved despite its tag). -/
theorem darken_pass_spec_witness :
    ((darkenPass 0 [⟨true, true, 5⟩] []).1 = [⟨true, true, darkMaterial⟩])
    ∧ (0, 5) ∈ (darkenPass 0 [⟨true, true, 5⟩] []).2 := by
  have h := darken_pass_spec [⟨true, true, 5⟩] []
  exact ⟨by rw [h.1]; rfl, h.2 0 (by decide) (by decide)⟩

/-- The GLSL `fract` always lands in `[0, 1)`. -/
theorem fract_mem (x : ℝ) : 0 ≤ fract x ∧ fract x < 1 :=
  ⟨Int.fract_nonneg x, Int.fract_lt_one x⟩

/-- The shader's `hash` always lands in `[0, 1)`. -/
theorem hash_mem (p : Vec3) : 0 ≤ hash p ∧ hash p < 1 := by
  simp only [hash, fract]
  exact ⟨Int.fract_nonneg _, Int.fract_lt_one _⟩

/-- The cubic fade maps `[0, 1)` into `[0, 1]`. -/
theorem fade_mem {f : ℝ} (h0 : 0 ≤ f) (h1 : f < 1) : 0 ≤ fade f ∧ fade f ≤ 1 := by
  unfold fade
  constructor
  · nlinarith
  · nlinarith [mul_nonneg (sq_nonneg (1 - f)) (by linarith : (0:ℝ) ≤ 1 + 2 * f)]

/-- A convex blend of two values of `[0, 1)` stays in `[0, 1)`. -/
theorem mix_mem {x y a : ℝ} (hx0 : 0 ≤ x) (hx1 : x < 1) (hy0 : 0 ≤ y) (hy1 : y < 1)
    (ha0 : 0 ≤ a) (ha1 : a ≤ 1) : 0 ≤ mix x y a ∧ mix x y a < 1 := by
  unfold mix
  constructor
  · have h1a : (0:ℝ) ≤ 1 - a := by linarith
    exact add_nonneg (mul_nonneg hx0 h1a) (mul_nonneg hy0 ha0)
  · rcases lt_or_eq_of_le ha1 with ha | ha
    · nlinarith [mul_pos (by linarith : (0:ℝ) < 1 - x) (by linarith : (0:ℝ) < 1 - a),
        mul_nonneg (by linarith : (0:ℝ) ≤ 1 - y) ha0]
    · subst ha; nlinarith [hy1]

/-- The shader's value `noise` always lands in `[0, 1)`. -/
theorem noise_mem (p : Vec3) : 0 ≤ noise p ∧ noise p < 1 := by
  simp only [noise, vfract]
  have hfx := fade_mem (fract_mem p.x).1 (fract_mem p.x).2
  have hfy := fade_mem (fract_mem p.y).1 (fract_mem p.y).2
  have hfz := fade_mem (fract_mem p.z).1 (fract_mem p.z).2
  have m1 := mix_mem (hash_mem (vaddv (vfloor p) ⟨0, 0, 0⟩)).1
    (hash_mem (vaddv (vfloor p) ⟨0, 0, 0⟩)).2
    (hash_mem (vaddv (vfloor p) ⟨1, 0, 0⟩)).1
    (hash_mem (vaddv (vfloor p) ⟨1, 0, 0⟩)).2 hfx.1 hfx.2
  have m2 := mix_mem (hash_mem (vaddv (vfloor p) ⟨0, 1, 0⟩)).1
    (hash_mem (vaddv (vfloor p) ⟨0, 1, 0⟩)).2
    (hash_mem (vaddv (vfloor p) ⟨1, 1, 0⟩)).1
    (hash_mem (vaddv (vfloor p) ⟨1, 1, 0⟩)).2 hfx.1 hfx.2
  have m3 := mix_mem (hash_mem (vaddv (vfloor p) ⟨0, 0, 1⟩)).1
    (hash_mem (vaddv (vfloor p) ⟨0, 0, 1⟩)).2
    (hash_mem (vaddv (vfloor p) ⟨1, 0, 1⟩)).1
    (hash_mem (vaddv (vfloor p) ⟨1, 0, 1⟩)).2 hfx.1 hfx.2
  have m4 := mix_mem (hash_mem (vaddv (vfloor p) ⟨0, 1, 1⟩)).1
    (hash_mem (vaddv (vfloor p) ⟨0, 1, 1⟩)).2
    (hash_mem (vaddv (vfloor p) ⟨1, 1, 1⟩)).1
    (hash_mem (vaddv (vfloor p) ⟨1, 1, 1⟩)).2 hfx.1 hfx.2
  have m12 := mix_mem m1.1 m1.2 m2.1 m2.2 hfy.1 hfy.2
  have m34 := mix_mem m3.1 m3.2 m4.1 m4.2 hfy.1 hfy.2
  exact mix_mem m12.1 m12.2 m34.1 m34.2 hfz.1 hfz.2

/-- Running `fbm`'s loop for `n` octaves starting from amplitude `a ≥ 0`
and accumulator `s` never decreases the accumulator and raises it by at
most `a · (2 - 2·(1/2)^n)` (the geometric amplitude sum). -/
theorem fbmAux_bounds : ∀ (n : ℕ) (a : ℝ) (p : Vec3) (s : ℝ), 0 ≤ a →
    s ≤ fbmAux n a p s ∧ fbmAux n a p s ≤ s + a * (2 - 2 * (1/2 : ℝ)^n) := by
  intro n
  induction n with
  | zero =>
    intro a p s ha
    simp [fbmAux]
  | succ k ih =>
    intro a p s ha
    have hn := noise_mem p
    have ih' := ih (a * 0.5) (fbmStep p) (s + a * noise p) (by nlinarith)
    have hstep : fbmAux (k + 1) a p s = fbmAux k (a * 0.5) (fbmStep p) (s + a * noise p) := rfl
    rw [hstep]
    have hpow : (0:ℝ) ≤ (1/2 : ℝ)^k := by positivity
    have hps : ((1:ℝ)/2)^(k+1) = (1/2 : ℝ)^k * (1/2) := pow_succ _ _
    have hmono : 0 ≤ a * noise p := mul_nonneg ha hn.1
    have hcap : a * noise p ≤ a := by nlinarith
    constructor
    · linarith [ih'.1]
    · rw [hps]; nlinarith [ih'.2]

/-- Function `smoothstep` with upper edge 1 stays strictly below 1 on inputs
strictly below 1 (for any lower edge below 1). -/
theorem smoothstep_lt_one {e0 x : ℝ} (he : e0 < 1) (hx : x < 1) :
    smoothstep e0 1 x < 1 := by
  show clamp01 ((x - e0) / (1 - e0)) * clamp01 ((x - e0) / (1 - e0))
      * (3 - 2 * clamp01 ((x - e0) / (1 - e0))) < 1
  set t := clamp01 ((x - e0) / (1 - e0)) with htdef
  have h1 : (x - e0) / (1 - e0) < 1 := by
    rw [div_lt_one (by linarith)]
    linarith
  have ht1 : t < 1 := by
    rw [htdef]
    exact max_lt (by norm_num) (lt_of_le_of_lt (min_le_left _ _) h1)
  have ht0 : (0:ℝ) ≤ t := le_max_left _ _
  nlinarith [mul_pos (mul_pos (by linarith : (0:ℝ) < 1 - t) (by linarith : (0:ℝ) < 1 - t))
    (by linarith : (0:ℝ) < 1 + 2 * t)]

/-- C9: `noise` lands in `[0, 1)` everywhere; `fbm` lands in
`[0, 0.96875]` (the amplitude sum `0.5+0.25+0.125+0.0625+0.03125`); so
`max(n, n2)` never reaches 1 and the lava value
`smoothstep(uCrack, 1.0, max(n, n2))` is strictly below 1 at every
sample point. -/
theorem noise_fbm_smoothstep_bounds :
    (∀ p : Vec3, 0 ≤ noise p ∧ noise p < 1)
    ∧ (∀ p : Vec3, 0 ≤ fbm p ∧ fbm p ≤ 0.96875)
    ∧ (∀ p q : Vec3, max (fbm p) (fbm q) < 1
        ∧ smoothstep uCrack 1 (max (fbm p) (fbm q)) < 1) := by
  have hfbm : ∀ p : Vec3, 0 ≤ fbm p ∧ fbm p ≤ 0.96875 := by
    intro p
    have h := fbmAux_bounds 5 0.5 p 0 (by norm_num)
    constructor
    · simpa [fbm] using h.1
    · have := h.2
      rw [show (0:ℝ) + 0.5 * (2 - 2 * (1/2 : ℝ)^5) = 0.96875 by norm_num] at this
      simpa [fbm] using this
  have hmax : ∀ p q : Vec3, max (fbm p) (fbm q) < 1 := by
    intro p q
    exact max_lt (lt_of_le_of_lt (hfbm p).2 (by norm_num))
      (lt_of_le_of_lt (hfbm q).2 (by norm_num))
  refine ⟨noise_mem, hfbm, fun p q => ⟨hmax p q, ?_⟩⟩
  exact smoothstep_lt_one (by norm_num [uCrack]) (hmax p q)

/-- C8 counterexample: the octaves of `fbm` are *not* sampled at exactly
doubled frequency.  The loop multiplies the sample point by 2.02 each
octave, so no fixed offset `c` makes every octave's sample point obey
`p_(k+1) = 2·p_k + c`: already at the origin, octave 1 samples at
`11.5` and octave 2 at `2.02·11.5 + 11.5 = 34.73`, while exact doubling
would give `34.5`. -/
theorem fbm_frequency_not_doubled :
    ¬ ∃ c : ℝ, ∀ k : ℕ, k < 4 →
        fbmArg ⟨0, 0, 0⟩ (k + 1) = vaddc (vmul 2 (fbmArg ⟨0, 0, 0⟩ k)) c := by
  rintro ⟨c, hc⟩
  have h0 := hc 0 (by norm_num)
  have h1 := hc 1 (by norm_num)
  have e0 : fbmArg ⟨0, 0, 0⟩ 0 = ⟨0, 0, 0⟩ := rfl
  have e1 : fbmArg ⟨0, 0, 0⟩ 1 = ⟨11.5, 11.5, 11.5⟩ := by
    show fbmStep ⟨0, 0, 0⟩ = _
    simp [fbmStep, vmul, vaddc]
  have e2 : fbmArg ⟨0, 0, 0⟩ 2 = ⟨34.73, 34.73, 34.73⟩ := by
    show fbmStep (fbmStep ⟨0, 0, 0⟩) = _
    simp only [fbmStep, vmul, vaddc]
    norm_num
  rw [e1, e0] at h0
  rw [e2, e1] at h1
  simp only [vmul, vaddc, Vec3.mk.injEq] at h0 h1
  have hcx : c = 11.5 := by linarith [h0.1]
  have := h1.1
  rw [hcx] at this
  norm_num at this

/-- C8 amended: `fbm` sums exactly 5 octaves of `noise`, with amplitudes
`0.5, 0.25, 0.125, 0.0625, 0.03125` (starting at 0.5 and halving each
octave), and each successive octave's sample point is the previous one
scaled by 2.02 (approximately, but not exactly, doubled frequency) plus
the fixed domain offset 11.5. -/
theorem fbm_structure (p : Vec3) :
    fbm p = 0.5 * noise (fbmArg p 0) + 0.25 * noise (fbmArg p 1)
      + 0.125 * noise (fbmArg p 2) + 0.0625 * noise (fbmArg p 3)
      + 0.03125 * noise (fbmArg p 4)
    ∧ ∀ k : ℕ, fbmArg p (k + 1) = vaddc (vmul 2.02 (fbmArg p k)) 11.5 := by
  constructor
  · have h : fbm p
        = 0 + 0.5 * noise p
          + 0.5 * 0.5 * noise (fbmStep p)
          + 0.5 * 0.5 * 0.5 * noise (fbmStep (fbmStep p))
          + 0.5 * 0.5 * 0.5 * 0.5 * noise (fbmStep (fbmStep (fbmStep p)))
          + 0.5 * 0.5 * 0.5 * 0.5 * 0.5 * noise (fbmStep (fbmStep (fbmStep (fbmStep p)))) :=
      rfl
    rw [h]
    show (0:ℝ) + 0.5 * noise (fbmArg p 0)
        + 0.5 * 0.5 * noise (fbmArg p 1)
        + 0.5 * 0.5 * 0.5 * noise (fbmArg p 2)
        + 0.5 * 0.5 * 0.5 * 0.5 * noise (fbmArg p 3)
        + 0.5 * 0.5 * 0.5 * 0.5 * 0.5 * noise (fbmArg p 4) = _
    norm_num
  · intro k; rfl

/-- C10 counterexample: at `θ = π/2, d = 1` the earlier revision places
the body at `(0, 0, -1)` while the current revision places it at
`(0, 0, 1)`: the two placements do not agree. -/
theorem old_new_placement_differ :
    oldWorldPos (Real.pi / 2) 1 ≠ newWorldPos (Real.pi / 2) 1 := by
  intro h
  have hz := congrArg Vec3.z h
  simp only [oldWorldPos, newWorldPos, rotY, Real.cos_pi_div_two, Real.sin_pi_div_two] at hz
  norm_num at hz

/-- C10 amended: for every angle `θ` and distance `d`, the earlier
revision's placement (mesh at `(d,0,0)` inside a group with
`rotation.y = θ`) yields the world position `(cos θ·d, 0, -sin θ·d)` —
the mirror image across the x-axis of the current revision's
`(cos θ·d, 0, sin θ·d)`.  The x- and y-coordinates agree; the
z-coordinate is negated, so the two revisions traverse the same circular
orbit in opposite directions. -/
theorem old_placement_mirrors_new (θ d : ℝ) :
    oldWorldPos θ d
      = ⟨(newWorldPos θ d).x, (newWorldPos θ d).y, -(newWorldPos θ d).z⟩ := by
  simp only [oldWorldPos, newWorldPos, rotY, Vec3.mk.injEq]
  refine ⟨by ring, trivial, by ring⟩

end Solar
